import Mathlib

/-!
Verification of `csv_to_json.py`: a pipeline that converts a flat table of
historical fuel-price rows into a nested station → product → price-history
JSON structure, optionally geocoding missing coordinates.

The embedding models:
* `parse_date` / `format_date` (date parsing `DD/MM/YYYY HH:MM`, ISO output);
* `process_stations` (the aggregator: global descending-date sort, pandas
  `groupby` on station id — which iterates keys in ascending sorted order —
  then inner `groupby` on `(idproducto, producto)` — ascending lexicographic —
  appending one price entry per row);
* `validate_and_geocode_stations` / `geocode_and_update` /
  `geocode_address_async` (the coordinate resolver; the external HTTP service
  is an oracle `String → Option GeoResponse`, `none` modelling an exception
  or timeout, and the model additionally reports whether the service was
  contacted);
* `format_output` (the formatter).

Numeric CSV cells (price, latitude, longitude) are modelled as `Option ℚ`:
pandas parses these columns numerically and maps NA-like cells (empty,
`"N/A"`, `"NaN"`, ...) to NaN, which `pd.notna` then filters; `float` values
are modelled by `ℚ`.  Dates are kept as the raw string of the CSV and parsed
by `parse_date` as in the source.
-/

/-! ### Dates: `parse_date` and `format_date` -/

/-- A parsed effective date (the `datetime` produced by
`datetime.strptime(date_str, "%d/%m/%Y %H:%M")`). -/
structure DateTime where
  year : Nat
  month : Nat
  day : Nat
  hour : Nat
  minute : Nat
deriving DecidableEq, Repr, Inhabited

/-- Chronological rank of a parsed date (lexicographic in
year, month, day, hour, minute; valid fields stay below the mixed radix). -/
def DateTime.rank (d : DateTime) : Nat :=
  (((d.year * 13 + d.month) * 32 + d.day) * 24 + d.hour) * 60 + d.minute

/-- Rank of an optional parsed date; `none` (an unparseable date, pandas
`NaT`/`None`) ranks strictly below every parsed date, so that a descending
sort puts unparseable dates last (`na_position='last'`). -/
def dtRankOpt : Option DateTime → Nat
  | none => 0
  | some d => d.rank + 1

/-- Numeric value of a digit string (the semantic value `int(s)` of an
all-digit field matched by `strptime`). -/
def digitsToNat (l : List Char) : Nat :=
  l.foldl (fun acc c => acc * 10 + (c.toNat - '0'.toNat)) 0

/-- One `strptime` numeric field: between `lo` and `hi` digit characters. -/
def parseNatField (l : List Char) (lo hi : Nat) : Option Nat :=
  if lo ≤ l.length ∧ l.length ≤ hi ∧ l.all Char.isDigit then
    some (digitsToNat l)
  else none

/-- Split a character list at every occurrence of the separator `c`
(the semantics of Python `str.split(c)` on the separators `strptime` uses). -/
def splitOnChar (c : Char) : List Char → List (List Char)
  | [] => [[]]
  | x :: xs =>
    let r := splitOnChar c xs
    if x = c then [] :: r
    else
      match r with
      | [] => [[x]]
      | y :: ys => (x :: y) :: ys

/-- Gregorian leap-year rule (as used by Python `datetime`). -/
def isLeap (y : Nat) : Bool :=
  y % 4 == 0 && (y % 100 != 0 || y % 400 == 0)

/-- Number of days of month `m` in year `y`. -/
def daysInMonth (y m : Nat) : Nat :=
  if m = 2 then (if isLeap y then 29 else 28)
  else if m = 4 ∨ m = 6 ∨ m = 9 ∨ m = 11 then 30
  else 31

/-- `parse_date` from the source: parse `"%d/%m/%Y %H:%M"` (day, month, hour
and minute of 1–2 digits, year of exactly 4 digits as in CPython's
`_strptime`, 24-hour clock, field validity enforced by the `datetime`
constructor), returning `none` when parsing fails. -/
def parse_date (s : String) : Option DateTime :=
  match splitOnChar ' ' s.data with
  | [ds, ts] =>
    match splitOnChar '/' ds, splitOnChar ':' ts with
    | [dd, mm, yyyy], [hh, mi] => do
      let d ← parseNatField dd 1 2
      let m ← parseNatField mm 1 2
      let y ← parseNatField yyyy 4 4
      let h ← parseNatField hh 1 2
      let mi ← parseNatField mi 1 2
      if 1 ≤ y ∧ y ≤ 9999 ∧ 1 ≤ m ∧ m ≤ 12 ∧ 1 ≤ d ∧ d ≤ daysInMonth y m
          ∧ h ≤ 23 ∧ mi ≤ 59 then
        some ⟨y, m, d, h, mi⟩
      else none
    | _, _ => none
  | _ => none

/-- Zero-pad a numeral to two digits (`strftime` `%m`/`%d`/`%H`/`%M`/`%S`). -/
def pad2 (n : Nat) : String :=
  if n < 10 then "0" ++ toString n else toString n

/-- Zero-pad a numeral to four digits (`strftime` `%Y`). -/
def pad4 (n : Nat) : String :=
  if n < 10 then "000" ++ toString n
  else if n < 100 then "00" ++ toString n
  else if n < 1000 then "0" ++ toString n
  else toString n

/-- `format_date` from the source: format to ISO-8601
`"%Y-%m-%dT%H:%M:%SZ"` (`None` stays `None`; seconds are always `00`). -/
def format_date : Option DateTime → Option String
  | none => none
  | some d =>
    some (pad4 d.year ++ "-" ++ pad2 d.month ++ "-" ++ pad2 d.day ++ "T"
      ++ pad2 d.hour ++ ":" ++ pad2 d.minute ++ ":00Z")

/-! ### Input rows and the aggregated data model -/

/-- One row of the input CSV (after `pd.read_csv`): identifiers are
integers, text columns strings, and the numeric columns `latitud`,
`longitud`, `precio` optional rationals (`none` = NA/NaN cell). -/
structure Row where
  idempresa : Int
  empresa : String
  direccion : String
  localidad : String
  provincia : String
  empresabandera : String
  idempresabandera : Int
  latitud : Option ℚ
  longitud : Option ℚ
  idproducto : Int
  producto : String
  precio : Option ℚ
  fecha_vigencia : String
  tipohorario : String
  idtipohorario : Int
deriving DecidableEq, Repr, Inhabited

/-- A row together with its `fecha_vigencia_dt` column
(`df["fecha_vigencia"].apply(parse_date)`). -/
abbrev RowD := Row × Option DateTime

/-- Add the `fecha_vigencia_dt` column. -/
def addCol (df : List Row) : List RowD :=
  df.map (fun r => (r, parse_date r.fecha_vigencia))

/-- Comparator of `df.sort_values("fecha_vigencia_dt", ascending=False)`:
non-increasing parsed date, unparseable dates last. -/
def rowLeP (a b : RowD) : Prop :=
  dtRankOpt b.2 ≤ dtRankOpt a.2

instance : DecidableRel rowLeP := fun _ _ => Nat.decLe _ _

instance : IsTotal RowD rowLeP :=
  ⟨fun a b => Nat.le_total (dtRankOpt b.2) (dtRankOpt a.2)⟩

instance : IsTrans RowD rowLeP :=
  ⟨fun _ _ _ hab hbc => Nat.le_trans hbc hab⟩

/-- The globally sorted frame (stable sort, ties keep arrival order). -/
def sortRows (l : List RowD) : List RowD :=
  l.insertionSort rowLeP

/-- One price history entry (`price_entry` in the source). -/
structure PricePoint where
  price : Option ℚ
  date : Option String
  hourType : String
  hourTypeId : Int
deriving DecidableEq, Repr, Inhabited

/-- One product of a station. -/
structure Product where
  productId : Int
  productName : String
  prices : List PricePoint
deriving DecidableEq, Repr, Inhabited

/-- A station's mutable coordinate pair. -/
structure Coordinates where
  lat : Option ℚ
  lng : Option ℚ
deriving DecidableEq, Repr, Inhabited

/-- One aggregated station; `products` is the insertion-ordered dict keyed by
the string `f"{product_id}_{product_name}"`. -/
structure Station where
  stationId : Int
  stationName : String
  address : String
  town : String
  province : String
  flag : String
  flagId : Int
  coordinates : Coordinates
  products : List (String × Product)
deriving DecidableEq, Repr, Inhabited

/-- `price_entry` built from one row (price `None` for NA cells, formatted
date, hour-type columns). -/
def priceEntry (rd : RowD) : PricePoint :=
  { price := rd.1.precio
    date := format_date rd.2
    hourType := rd.1.tipohorario
    hourTypeId := rd.1.idtipohorario }

/-- The dict key `f"{product_id}_{product_name}"`. -/
def product_key (pk : Int × String) : String :=
  toString pk.1 ++ "_" ++ pk.2

/-- Ascending lexicographic order on the composite product key
`(idproducto, producto)`, the iteration order of a two-column pandas
`groupby`. -/
def pairLeP (p q : Int × String) : Prop :=
  p.1 < q.1 ∨ (p.1 = q.1 ∧ p.2 ≤ q.2)

instance : DecidableRel pairLeP := fun p q => by
  unfold pairLeP
  infer_instance

instance : IsTotal (Int × String) pairLeP := by
  constructor
  intro p q
  rcases lt_trichotomy p.1 q.1 with h | h | h
  · exact Or.inl (Or.inl h)
  · rcases le_total p.2 q.2 with h2 | h2
    · exact Or.inl (Or.inr ⟨h, h2⟩)
    · exact Or.inr (Or.inr ⟨h.symm, h2⟩)
  · exact Or.inr (Or.inl h)

instance : IsTrans (Int × String) pairLeP := by
  constructor
  intro p q r hpq hqr
  rcases hpq with h1 | ⟨h1, h1s⟩
  · rcases hqr with h2 | ⟨h2, _⟩
    · exact Or.inl (lt_trans h1 h2)
    · exact Or.inl (h2 ▸ h1)
  · rcases hqr with h2 | ⟨h2, h2s⟩
    · exact Or.inl (h1 ▸ h2)
    · exact Or.inr ⟨h1.trans h2, h1s.trans h2s⟩

/-- Keys of the inner `groupby(["idproducto", "producto"])`: the distinct
`(idproducto, producto)` pairs of the group, iterated in ascending
lexicographic order (pandas sorts group keys). -/
def productPairs (g : List RowD) : List (Int × String) :=
  ((g.map (fun rd => (rd.1.idproducto, rd.1.producto))).dedup).insertionSort pairLeP

/-- The rows of one product subgroup, in (already sorted) group order. -/
def productGroup (g : List RowD) (pk : Int × String) : List RowD :=
  g.filter (fun rd => rd.1.idproducto == pk.1 && rd.1.producto == pk.2)

/-- Replace the product stored under `key` by appending `newPrices` to its
price list (`station["products"][product_key]["prices"].append(...)`). -/
def updateProd (prods : List (String × Product)) (key : String)
    (newPrices : List PricePoint) : List (String × Product) :=
  prods.map (fun p =>
    if p.1 == key then (p.1, { p.2 with prices := p.2.prices ++ newPrices })
    else p)

/-- One iteration of the `for (product_id, product_name), product_group in
station_group.groupby(...)` loop: create the product entry when its key is
absent, then append one `price_entry` per subgroup row. -/
def productStep (g : List RowD) (prods : List (String × Product))
    (pk : Int × String) : List (String × Product) :=
  let key := product_key pk
  let prods' :=
    if (prods.lookup key).isSome then prods
    else prods ++ [(key, { productId := pk.1, productName := pk.2, prices := [] })]
  updateProd prods' key ((productGroup g pk).map priceEntry)

/-- The whole inner product loop over the subgroups of one station group. -/
def processProducts (prods0 : List (String × Product)) (g : List RowD) :
    List (String × Product) :=
  (productPairs g).foldl (productStep g) prods0

/-- Seed a station record from the first (most recent) row of its group
(`first_row = station_group.iloc[0]`). -/
def seedStation (rd : RowD) : Station :=
  { stationId := rd.1.idempresa
    stationName := rd.1.empresa
    address := rd.1.direccion
    town := rd.1.localidad
    province := rd.1.provincia
    flag := rd.1.empresabandera
    flagId := rd.1.idempresabandera
    coordinates := { lat := rd.1.latitud, lng := rd.1.longitud }
    products := [] }

/-- Keys of `df.groupby("idempresa")`: the distinct station ids in ascending
order (pandas sorts group keys). -/
def stationKeys (dfd : List RowD) : List Int :=
  ((dfd.map (fun rd => rd.1.idempresa)).dedup).insertionSort (· ≤ ·)

/-- The rows of one station group, in (already sorted) frame order. -/
def stationGroup (dfd : List RowD) (sid : Int) : List RowD :=
  dfd.filter (fun rd => rd.1.idempresa == sid)

/-- One iteration of the station loop: seed the station when its id is new
(each `groupby` key occurs exactly once, so the `else` reuse branch is the
idempotent guard of the source), then process the group's products. -/
def processStation (dfd : List RowD) (stations : List (Int × Station))
    (sid : Int) : List (Int × Station) :=
  match stationGroup dfd sid with
  | [] => stations
  | first :: _ =>
    match stations.lookup sid with
    | some _ =>
      stations.map (fun p =>
        if p.1 == sid then
          (p.1, { p.2 with products := processProducts p.2.products (stationGroup dfd sid) })
        else p)
    | none =>
      stations ++ [(sid,
        { seedStation first with products := processProducts [] (stationGroup dfd sid) })]

/-- `process_stations` from the source: add the parsed-date column, sort by
descending date (unparseable dates last), then group by station id and by
`(idproducto, producto)`. -/
def process_stations (df : List Row) : List (Int × Station) :=
  let dfd := sortRows (addCol df)
  (stationKeys dfd).foldl (processStation dfd) []

/-! ### Coordinate resolver -/

/-- The address value passed to `geocode_address_async` (Python is dynamically
typed there: `None`, a float NaN, or a string). -/
inductive AddrVal where
  | null : AddrVal
  | nan : AddrVal
  | str : String → AddrVal
deriving DecidableEq, Repr

/-- `results[0]["geometry"]["location"]` of a geocoding response. -/
structure GeoResult where
  lat : ℚ
  lng : ℚ
deriving DecidableEq, Repr

/-- The decoded JSON body of a geocoding response: a `status` field and a
list of results. -/
structure GeoResponse where
  status : String
  results : List GeoResult
deriving DecidableEq, Repr

/-- The guard `not GEOCODING_ENABLED or not address or pd.isna(address)`:
`not address` is Python falsiness (`None` or the empty string; a NaN float is
truthy but caught by `pd.isna`). -/
def addrSkipped (enabled : Bool) (addr : AddrVal) : Bool :=
  !enabled ||
    (match addr with
     | AddrVal.null => true
     | AddrVal.nan => true
     | AddrVal.str s => s == "")

/-- `geocode_address_async` from the source.  The external HTTP service is an
oracle `String → Option GeoResponse` (`none` models a raised exception or
timeout).  The result is the returned `(lat, lng)` tuple together with a flag
recording whether the external service was contacted at all. -/
def geocode_address_async (enabled : Bool)
    (service : String → Option GeoResponse) (addr : AddrVal) :
    (Option ℚ × Option ℚ) × Bool :=
  if addrSkipped enabled addr then ((none, none), false)
  else
    match addr with
    | AddrVal.null => ((none, none), true)
    | AddrVal.nan => ((none, none), true)
    | AddrVal.str s =>
      match service s with
      | none => ((none, none), true)
      | some data =>
        if data.status == "OK" then
          match data.results with
          | [] => ((none, none), true)
          | r :: _ => ((some r.lat, some r.lng), true)
        else ((none, none), true)

/-- The free-text query address
`f"{station['address']}, {station['town']}, {station['province']}, Argentina"`. -/
def mkAddress (st : Station) : String :=
  st.address ++ ", " ++ st.town ++ ", " ++ st.province ++ ", Argentina"

/-- Python truthiness of an optional float (`if lat and lng:`): `None` and
`0.0` are falsy. -/
def pyTruthy : Option ℚ → Bool
  | none => false
  | some q => !(q == 0)

/-- `geocode_and_update` from the source (the final state of the station once
its task ran; the `station_id` argument is only printed): overwrite both
coordinates when the returned pair is truthy, otherwise leave the station
untouched. -/
def geocode_and_update (enabled : Bool)
    (service : String → Option GeoResponse) (st : Station) : Station :=
  let lat := (geocode_address_async enabled service (AddrVal.str (mkAddress st))).1.1
  let lng := (geocode_address_async enabled service (AddrVal.str (mkAddress st))).1.2
  if pyTruthy lat && pyTruthy lng then
    { st with coordinates := { lat := lat, lng := lng } }
  else st

/-- The selection predicate of the resolver:
`lat is None or lng is None or lat == 0 or lng == 0`. -/
def needsGeoB (st : Station) : Bool :=
  st.coordinates.lat == none || st.coordinates.lng == none ||
    st.coordinates.lat == some 0 || st.coordinates.lng == some 0

/-- `validate_and_geocode_stations` from the source: a no-op when geocoding
is disabled or no station is selected; otherwise each selected station is
updated in place by its (single) geocoding task.  Completion order of the
concurrent tasks does not affect the final mapping, since each task touches
only its own station, so the pass is modelled by a pointwise map. -/
def validate_and_geocode_stations (enabled : Bool)
    (service : String → Option GeoResponse)
    (stations : List (Int × Station)) : List (Int × Station) :=
  if !enabled then stations
  else
    let stations_to_geocode := stations.filter (fun p => needsGeoB p.2)
    if stations_to_geocode.isEmpty then stations
    else
      stations.map (fun p =>
        if needsGeoB p.2 then (p.1, geocode_and_update enabled service p.2)
        else p)

/-! ### Output formatter -/

/-- The fixed point-geometry object. -/
structure Geometry where
  type : String
  coordinates : List ℚ
deriving DecidableEq, Repr, Inhabited

/-- One element of the final output list. -/
structure StationEntry where
  stationId : Int
  stationName : String
  address : String
  town : String
  province : String
  flag : String
  flagId : Int
  geometry : Geometry
  products : List Product
deriving DecidableEq, Repr, Inhabited

/-- Python `x or 0.0` on an optional float: `None` (and a zero value) fall
back to `0.0`. -/
def orZero : Option ℚ → ℚ
  | none => 0
  | some v => if v == 0 then 0 else v

/-- The body of the `format_output` loop: one `station_entry`. -/
def mkStationEntry (st : Station) : StationEntry :=
  { stationId := st.stationId
    stationName := st.stationName
    address := st.address
    town := st.town
    province := st.province
    flag := st.flag
    flagId := st.flagId
    geometry :=
      { type := "Point"
        coordinates := [orZero st.coordinates.lng, orZero st.coordinates.lat] }
    products := st.products.map Prod.snd }

/-- `format_output` from the source: flatten the station mapping, in its
insertion order, to the output list. -/
def format_output (stations : List (Int × Station)) : List StationEntry :=
  stations.map (fun p => mkStationEntry p.2)

/-! ### Character-level facts about integer numerals

The products dict is keyed by the string `f"{product_id}_{product_name}"`;
to show distinct `(productId, productName)` pairs never share a key we prove
that the decimal numeral of an integer consists of digits (and a leading
dash), hence contains no underscore, and is injective. -/

section ReprLemmas

lemma digitChar_ge_16 (n : Nat) (h : 16 ≤ n) : Nat.digitChar n = '*' := by
  have hk : ∀ k, k < 16 → ¬(n = k) := by omega
  unfold Nat.digitChar
  rw [if_neg (hk 0 (by norm_num)), if_neg (hk 1 (by norm_num)),
    if_neg (hk 2 (by norm_num)), if_neg (hk 3 (by norm_num)),
    if_neg (hk 4 (by norm_num)), if_neg (hk 5 (by norm_num)),
    if_neg (hk 6 (by norm_num)), if_neg (hk 7 (by norm_num)),
    if_neg (hk 8 (by norm_num)), if_neg (hk 9 (by norm_num)),
    if_neg (hk 10 (by norm_num)), if_neg (hk 11 (by norm_num)),
    if_neg (hk 12 (by norm_num)), if_neg (hk 13 (by norm_num)),
    if_neg (hk 14 (by norm_num)), if_neg (hk 15 (by norm_num))]

lemma digitChar_ne_underscore (n : Nat) : Nat.digitChar n ≠ '_' := by
  by_cases h : n < 16
  · interval_cases n <;> decide
  · rw [digitChar_ge_16 n (by omega)]; decide

lemma digitChar_ne_dash (n : Nat) : Nat.digitChar n ≠ '-' := by
  by_cases h : n < 16
  · interval_cases n <;> decide
  · rw [digitChar_ge_16 n (by omega)]; decide

lemma digitChar_isDigit (n : Nat) (h : n < 10) : (Nat.digitChar n).isDigit = true := by
  interval_cases n <;> decide

lemma digitChar_inj {a b : Nat} (ha : a < 10) (hb : b < 10)
    (h : Nat.digitChar a = Nat.digitChar b) : a = b := by
  interval_cases a <;> interval_cases b <;> simp_all <;> revert h <;> decide

lemma toDigitsCore_eq : ∀ (n fuel : Nat) (ds : List Char), n < fuel → n ≠ 0 →
    Nat.toDigitsCore 10 fuel n ds
      = ((Nat.digits 10 n).reverse.map Nat.digitChar) ++ ds := by
  intro n
  induction n using Nat.strong_induction_on with
  | _ n ih =>
    intro fuel ds hfuel hn
    match fuel, hfuel with
    | fuel + 1, hf =>
      rw [Nat.digits_def' (by norm_num : (1:Nat) < 10) (Nat.pos_of_ne_zero hn)]
      simp only [Nat.toDigitsCore]
      by_cases h : n / 10 = 0
      · simp [h]
      · rw [if_neg h]
        have hlt : n / 10 < n := Nat.div_lt_self (Nat.pos_of_ne_zero hn) (by norm_num)
        have hfl : n / 10 < fuel := lt_of_lt_of_le hlt (Nat.le_of_lt_succ hf)
        rw [ih (n / 10) hlt fuel (Nat.digitChar (n % 10) :: ds) hfl h]
        simp

lemma nat_repr_data_of_ne_zero (n : Nat) (hn : n ≠ 0) :
    (Nat.repr n).data = (Nat.digits 10 n).reverse.map Nat.digitChar := by
  show (Nat.toDigits 10 n).asString.data = _
  unfold Nat.toDigits
  rw [toDigitsCore_eq n (n + 1) [] (Nat.lt_succ_self n) hn]
  simp [List.asString]

lemma nat_repr_data_zero : (Nat.repr 0).data = ['0'] := rfl

lemma nat_repr_isDigit (n : Nat) : ∀ c ∈ (Nat.repr n).data, c.isDigit = true := by
  by_cases hn : n = 0
  · subst hn; intro c hc; simp [nat_repr_data_zero] at hc; subst hc; decide
  · intro c hc
    rw [nat_repr_data_of_ne_zero n hn] at hc
    simp only [List.mem_map, List.mem_reverse] at hc
    obtain ⟨d, hd, rfl⟩ := hc
    exact digitChar_isDigit d (Nat.digits_lt_base (by norm_num) hd)

lemma map_digitChar_inj : ∀ (as bs : List Nat), (∀ a ∈ as, a < 10) → (∀ b ∈ bs, b < 10) →
    as.map Nat.digitChar = bs.map Nat.digitChar → as = bs := by
  intro as
  induction as with
  | nil => intro bs _ _ h; cases bs <;> simp_all
  | cons a as ih =>
    intro bs ha hb h
    cases bs with
    | nil => simp_all
    | cons b bs =>
      simp only [List.map_cons, List.cons.injEq] at h
      have h1 : a = b :=
        digitChar_inj (ha a (by simp)) (hb b (by simp)) h.1
      have h2 : as = bs :=
        ih bs (fun x hx => ha x (by simp [hx])) (fun x hx => hb x (by simp [hx])) h.2
      simp [h1, h2]

lemma repr_map_singleton_zero {m : Nat} (hm : m ≠ 0)
    (hd : (Nat.digits 10 m).reverse.map Nat.digitChar = ['0']) : False := by
  rcases h10 : (Nat.digits 10 m).reverse with _ | ⟨d, ds⟩
  · rw [h10] at hd; simp at hd
  · rw [h10] at hd
    rcases ds with _ | ⟨d', ds'⟩
    · simp only [List.map_cons, List.map_nil, List.cons.injEq, and_true] at hd
      have hdig : Nat.digits 10 m = [d] := by
        have h2 := congrArg List.reverse h10
        simp only [List.reverse_reverse, List.reverse_cons, List.reverse_nil,
          List.nil_append] at h2
        exact h2
      have hmem : d ∈ Nat.digits 10 m := by rw [hdig]; exact List.mem_singleton_self d
      have hd10 : d < 10 := Nat.digits_lt_base (by norm_num) hmem
      have hd0 : d = 0 := digitChar_inj hd10 (by norm_num) (hd.trans rfl)
      subst hd0
      have hm0 : m = 0 := by
        have h := Nat.ofDigits_digits 10 m
        rw [hdig] at h
        simpa [Nat.ofDigits] using h.symm
      exact hm hm0
    · simp at hd

lemma nat_repr_inj {n m : Nat} (h : Nat.repr n = Nat.repr m) : n = m := by
  have hd : (Nat.repr n).data = (Nat.repr m).data := by rw [h]
  by_cases hn : n = 0 <;> by_cases hm : m = 0
  · simp [hn, hm]
  · exfalso
    rw [hn, nat_repr_data_zero, nat_repr_data_of_ne_zero m hm] at hd
    exact repr_map_singleton_zero hm hd.symm
  · exfalso
    rw [hm, nat_repr_data_zero, nat_repr_data_of_ne_zero n hn] at hd
    exact repr_map_singleton_zero hn hd
  · rw [nat_repr_data_of_ne_zero n hn, nat_repr_data_of_ne_zero m hm] at hd
    have h1 : (Nat.digits 10 n).reverse = (Nat.digits 10 m).reverse :=
      map_digitChar_inj _ _
        (fun a ha => Nat.digits_lt_base (by norm_num) (by simpa using ha))
        (fun b hb => Nat.digits_lt_base (by norm_num) (by simpa using hb)) hd
    have h2 : Nat.digits 10 n = Nat.digits 10 m := List.reverse_inj.mp h1
    calc n = Nat.ofDigits 10 (Nat.digits 10 n) := (Nat.ofDigits_digits 10 n).symm
    _ = Nat.ofDigits 10 (Nat.digits 10 m) := by rw [h2]
    _ = m := Nat.ofDigits_digits 10 m

end ReprLemmas

section IntRepr

lemma nat_repr_ne_nil (n : Nat) : (Nat.repr n).data ≠ [] := by
  by_cases hn : n = 0
  · subst hn; rw [nat_repr_data_zero]; simp
  · rw [nat_repr_data_of_ne_zero n hn]
    simp only [ne_eq, List.map_eq_nil_iff, List.reverse_eq_nil_iff]
    exact Nat.digits_ne_nil_iff_ne_zero.mpr hn

lemma toString_int_eq (i : Int) : toString i = Int.repr i := rfl

lemma int_repr_data_ofNat (m : Nat) : Int.repr (Int.ofNat m) = Nat.repr m := rfl

lemma int_repr_data_negSucc (m : Nat) :
    (Int.repr (Int.negSucc m)).data = '-' :: (Nat.repr (m + 1)).data := by
  show (("-" : String) ++ Nat.repr (m + 1)).data = _
  rw [String.data_append]
  rfl

lemma int_repr_no_underscore (i : Int) : '_' ∉ (Int.repr i).data := by
  cases i with
  | ofNat m =>
    rw [int_repr_data_ofNat]
    intro hmem
    have := nat_repr_isDigit m '_' hmem
    exact absurd this (by decide)
  | negSucc m =>
    rw [int_repr_data_negSucc]
    intro hmem
    rcases List.mem_cons.mp hmem with h | h
    · exact absurd h (by decide)
    · have := nat_repr_isDigit (m + 1) '_' h
      exact absurd this (by decide)

lemma int_repr_inj {a b : Int} (h : Int.repr a = Int.repr b) : a = b := by
  cases a with
  | ofNat m =>
    cases b with
    | ofNat k =>
      rw [int_repr_data_ofNat, int_repr_data_ofNat] at h
      exact congrArg Int.ofNat (nat_repr_inj h)
    | negSucc k =>
      exfalso
      have hd : (Nat.repr m).data = '-' :: (Nat.repr (k + 1)).data := by
        rw [← int_repr_data_ofNat, h, int_repr_data_negSucc]
      have hmem : '-' ∈ (Nat.repr m).data := by rw [hd]; exact List.mem_cons_self _ _
      have := nat_repr_isDigit m '-' hmem
      exact absurd this (by decide)
  | negSucc m =>
    cases b with
    | ofNat k =>
      exfalso
      have hd : (Nat.repr k).data = '-' :: (Nat.repr (m + 1)).data := by
        rw [← int_repr_data_ofNat, ← h, int_repr_data_negSucc]
      have hmem : '-' ∈ (Nat.repr k).data := by rw [hd]; exact List.mem_cons_self _ _
      have := nat_repr_isDigit k '-' hmem
      exact absurd this (by decide)
    | negSucc k =>
      have hd : (Int.repr (Int.negSucc m)).data = (Int.repr (Int.negSucc k)).data := by
        rw [h]
      rw [int_repr_data_negSucc, int_repr_data_negSucc] at hd
      have h2 : (Nat.repr (m + 1)).data = (Nat.repr (k + 1)).data :=
        (List.cons.injEq _ _ _ _ ▸ hd).2
      have h3 : m + 1 = k + 1 := nat_repr_inj (by
        apply String.ext
        exact h2)
      simp [Nat.succ_injective h3]

lemma append_sep_inj {c : Char} :
    ∀ (l1 l2 r1 r2 : List Char), c ∉ l1 → c ∉ l2 →
      l1 ++ c :: r1 = l2 ++ c :: r2 → l1 = l2 ∧ r1 = r2 := by
  intro l1
  induction l1 with
  | nil =>
    intro l2 r1 r2 _ h2 h
    cases l2 with
    | nil => simpa using h
    | cons b l2 =>
      exfalso
      simp only [List.nil_append, List.cons_append, List.cons.injEq] at h
      exact h2 (h.1 ▸ List.mem_cons_self _ _)
  | cons a l1 ih =>
    intro l2 r1 r2 h1 h2 h
    cases l2 with
    | nil =>
      exfalso
      simp only [List.nil_append, List.cons_append, List.cons.injEq] at h
      exact h1 (h.1.symm ▸ List.mem_cons_self _ _)
    | cons b l2 =>
      simp only [List.cons_append, List.cons.injEq] at h
      have := ih l2 r1 r2 (fun hm => h1 (List.mem_cons_of_mem _ hm))
        (fun hm => h2 (List.mem_cons_of_mem _ hm)) h.2
      exact ⟨by simp [h.1, this.1], this.2⟩

end IntRepr

/-! ### Injectivity of the product dict key -/

lemma product_key_data (pk : Int × String) :
    (product_key pk).data = (toString pk.1).data ++ '_' :: pk.2.data := by
  show ((toString pk.1 ++ "_") ++ pk.2).data = _
  rw [String.data_append, String.data_append]
  simp

lemma product_key_inj {p q : Int × String} (h : product_key p = product_key q) :
    p = q := by
  have hd : (product_key p).data = (product_key q).data := by rw [h]
  rw [product_key_data, product_key_data] at hd
  have hsplit :=
    append_sep_inj (toString p.1).data (toString q.1).data p.2.data q.2.data
      (int_repr_no_underscore p.1) (int_repr_no_underscore q.1) hd
  have h1 : p.1 = q.1 := int_repr_inj (String.ext hsplit.1)
  have h2 : p.2 = q.2 := String.ext hsplit.2
  exact Prod.ext h1 h2

/-! ### Association list helpers -/

lemma lookup_eq_none_of_not_mem {α β : Type _} [BEq α] [LawfulBEq α]
    (key : α) (l : List (α × β)) (h : key ∉ l.map Prod.fst) :
    l.lookup key = none := by
  rw [List.lookup_eq_none_iff]
  intro p hp
  simp only [bne_iff_ne, ne_eq]
  intro hk
  exact h (hk ▸ List.mem_map_of_mem Prod.fst hp)

lemma lookup_keyed_map_some {α β γ : Type _} [BEq γ] [LawfulBEq γ]
    (k : α → γ) (v : α → β) :
    ∀ (l : List α) (a : γ) (x : β),
      (l.map (fun t => (k t, v t))).lookup a = some x →
      ∃ t ∈ l, k t = a ∧ x = v t := by
  intro l
  induction l with
  | nil => intro a x h; simp [List.lookup] at h
  | cons t0 l ih =>
    intro a x h
    simp only [List.map_cons, List.lookup] at h
    by_cases hk : (a == k t0) = true
    · rw [hk] at h
      simp only [Option.some.injEq] at h
      exact ⟨t0, by simp, (eq_of_beq hk).symm, h.symm⟩
    · rw [Bool.not_eq_true] at hk
      rw [hk] at h
      obtain ⟨t, ht, hkt, hx⟩ := ih a x h
      exact ⟨t, by simp [ht], hkt, hx⟩

lemma lookup_keyed_map_self {α β γ : Type _} [BEq γ] [LawfulBEq γ]
    (k : α → γ) (v : α → β) :
    ∀ (l : List α) (a : α), (l.map k).Nodup → a ∈ l →
      (l.map (fun t => (k t, v t))).lookup (k a) = some (v a) := by
  intro l
  induction l with
  | nil => intro a _ ha; simp at ha
  | cons t0 l ih =>
    intro a hnd ha
    simp only [List.map_cons, List.lookup]
    by_cases hk : (k a == k t0) = true
    · rw [hk]
      have hka : k a = k t0 := eq_of_beq hk
      rcases List.mem_cons.mp ha with rfl | hmem
      · rfl
      · exfalso
        have hmk : k a ∈ l.map k := List.mem_map_of_mem k hmem
        rw [hka] at hmk
        exact (List.nodup_cons.mp (by simpa using hnd)).1 hmk
    · rw [Bool.not_eq_true] at hk
      rw [hk]
      rcases List.mem_cons.mp ha with rfl | hmem
      · exact absurd (beq_self_eq_true (k a)) (by rw [hk]; simp)
      · exact ih a (List.nodup_cons.mp (by simpa using hnd)).2 hmem

/-! ### Normal form of the aggregation fold -/

/-- The product entry the aggregator builds for subgroup `pk` of group `g`. -/
def prodOf (g : List RowD) (pk : Int × String) : Product :=
  { productId := pk.1
    productName := pk.2
    prices := (productGroup g pk).map priceEntry }

/-- The station record the aggregator builds for station id `sid`. -/
def buildStation (dfd : List RowD) (sid : Int) : Station :=
  match stationGroup dfd sid with
  | [] => default
  | first :: _ =>
    { seedStation first with products := processProducts [] (stationGroup dfd sid) }

lemma updateProd_append_sing (acc : List (String × Product)) (key : String)
    (prod : Product) (newPrices : List PricePoint)
    (hk : key ∉ acc.map Prod.fst) :
    updateProd (acc ++ [(key, prod)]) key newPrices
      = acc ++ [(key, { prod with prices := prod.prices ++ newPrices })] := by
  unfold updateProd
  rw [List.map_append]
  congr 1
  · have h1 : ∀ p ∈ acc,
        (if p.1 == key then (p.1, { p.2 with prices := p.2.prices ++ newPrices }) else p)
          = id p := by
      intro p hp
      have hne : p.1 ≠ key := by
        intro he
        exact hk (he ▸ List.mem_map_of_mem Prod.fst hp)
      simp [hne]
    rw [List.map_inj_left.mpr h1, List.map_id]
  · simp

lemma productStep_fresh (g : List RowD) (pk : Int × String)
    (prods : List (String × Product))
    (hk : product_key pk ∉ prods.map Prod.fst) :
    productStep g prods pk = prods ++ [(product_key pk, prodOf g pk)] := by
  show updateProd
      (if (prods.lookup (product_key pk)).isSome = true then prods
       else prods ++ [(product_key pk,
         { productId := pk.1, productName := pk.2, prices := [] })])
      (product_key pk) ((productGroup g pk).map priceEntry)
    = prods ++ [(product_key pk, prodOf g pk)]
  rw [lookup_eq_none_of_not_mem _ _ hk]
  simp only [Option.isSome_none, Bool.false_eq_true, if_false]
  rw [updateProd_append_sing prods _ _ _ hk]
  simp [prodOf]

lemma foldl_productStep (g : List RowD) :
    ∀ (pairs : List (Int × String)) (acc : List (String × Product)),
      pairs.Nodup →
      (∀ pk ∈ pairs, product_key pk ∉ acc.map Prod.fst) →
      pairs.foldl (productStep g) acc
        = acc ++ pairs.map (fun pk => (product_key pk, prodOf g pk)) := by
  intro pairs
  induction pairs with
  | nil => intro acc _ _; simp
  | cons pk0 rest ih =>
    intro acc hnd hfresh
    rw [List.foldl_cons,
      productStep_fresh g pk0 acc (hfresh pk0 (List.mem_cons_self _ _))]
    rw [ih (acc ++ [(product_key pk0, prodOf g pk0)])
      (List.nodup_cons.mp hnd).2 ?_]
    · simp
    · intro pk hpk
      rw [List.map_append]
      intro hmem
      rcases List.mem_append.mp hmem with h | h
      · exact hfresh pk (List.mem_cons_of_mem _ hpk) h
      · simp only [List.map_cons, List.map_nil, List.mem_singleton] at h
        have : pk = pk0 := product_key_inj h
        exact (List.nodup_cons.mp hnd).1 (this ▸ hpk)

lemma productPairs_nodup (g : List RowD) : (productPairs g).Nodup := by
  unfold productPairs
  exact (List.perm_insertionSort _ _).nodup_iff.mpr (List.nodup_dedup _)

lemma mem_productPairs {g : List RowD} {pk : Int × String} :
    pk ∈ productPairs g ↔ ∃ rd ∈ g, (rd.1.idproducto, rd.1.producto) = pk := by
  unfold productPairs
  rw [(List.perm_insertionSort _ _).mem_iff, List.mem_dedup, List.mem_map]

lemma processProducts_nil (g : List RowD) :
    processProducts [] g
      = (productPairs g).map (fun pk => (product_key pk, prodOf g pk)) := by
  unfold processProducts
  rw [foldl_productStep g (productPairs g) [] (productPairs_nodup g) (by simp)]
  simp

lemma buildStation_eq (dfd : List RowD) (sid : Int) (first : RowD) (rest : List RowD)
    (hfr : stationGroup dfd sid = first :: rest) :
    buildStation dfd sid
      = { seedStation first with products := processProducts [] (stationGroup dfd sid) } := by
  unfold buildStation
  rw [hfr]

lemma processStation_fresh (dfd : List RowD) (stations : List (Int × Station))
    (sid : Int) (hg : stationGroup dfd sid ≠ [])
    (hk : sid ∉ stations.map Prod.fst) :
    processStation dfd stations sid = stations ++ [(sid, buildStation dfd sid)] := by
  obtain ⟨first, rest, hfr⟩ := List.exists_cons_of_ne_nil hg
  unfold processStation
  rw [hfr, lookup_eq_none_of_not_mem sid stations hk,
    buildStation_eq dfd sid first rest hfr]
  simp [hfr]

lemma foldl_processStation (dfd : List RowD) :
    ∀ (keys : List Int) (acc : List (Int × Station)),
      keys.Nodup →
      (∀ k ∈ keys, stationGroup dfd k ≠ []) →
      (∀ k ∈ keys, k ∉ acc.map Prod.fst) →
      keys.foldl (processStation dfd) acc
        = acc ++ keys.map (fun sid => (sid, buildStation dfd sid)) := by
  intro keys
  induction keys with
  | nil => intro acc _ _ _; simp
  | cons k0 rest ih =>
    intro acc hnd hne hfresh
    rw [List.foldl_cons,
      processStation_fresh dfd acc k0 (hne k0 (List.mem_cons_self _ _))
        (hfresh k0 (List.mem_cons_self _ _))]
    rw [ih (acc ++ [(k0, buildStation dfd k0)]) (List.nodup_cons.mp hnd).2
      (fun k hkr => hne k (List.mem_cons_of_mem _ hkr)) ?_]
    · simp
    · intro k hkr
      rw [List.map_append]
      intro hmem
      rcases List.mem_append.mp hmem with h | h
      · exact hfresh k (List.mem_cons_of_mem _ hkr) h
      · simp only [List.map_cons, List.map_nil, List.mem_singleton] at h
        exact (List.nodup_cons.mp hnd).1 (h ▸ hkr)

lemma stationKeys_nodup (dfd : List RowD) : (stationKeys dfd).Nodup := by
  unfold stationKeys
  exact (List.perm_insertionSort _ _).nodup_iff.mpr (List.nodup_dedup _)

lemma mem_stationKeys {dfd : List RowD} {k : Int} :
    k ∈ stationKeys dfd ↔ ∃ rd ∈ dfd, rd.1.idempresa = k := by
  unfold stationKeys
  rw [(List.perm_insertionSort _ _).mem_iff, List.mem_dedup, List.mem_map]

lemma mem_stationGroup {dfd : List RowD} {sid : Int} {rd : RowD} :
    rd ∈ stationGroup dfd sid ↔ rd ∈ dfd ∧ rd.1.idempresa = sid := by
  unfold stationGroup
  rw [List.mem_filter]
  simp

lemma stationGroup_ne_nil_of_mem_keys {dfd : List RowD} {k : Int}
    (h : k ∈ stationKeys dfd) : stationGroup dfd k ≠ [] := by
  obtain ⟨rd, hrd, hid⟩ := mem_stationKeys.mp h
  exact List.ne_nil_of_mem (mem_stationGroup.mpr ⟨hrd, hid⟩)

lemma process_stations_eq (df : List Row) :
    process_stations df
      = (stationKeys (sortRows (addCol df))).map
          (fun sid => (sid, buildStation (sortRows (addCol df)) sid)) := by
  unfold process_stations
  rw [foldl_processStation (sortRows (addCol df)) (stationKeys (sortRows (addCol df))) []
    (stationKeys_nodup _) (fun k hk => stationGroup_ne_nil_of_mem_keys hk) (by simp)]
  simp

/-! ### Sortedness and membership facts about the sorted frame -/

lemma sortRows_pairwise (l : List RowD) :
    List.Pairwise (fun a b : RowD => dtRankOpt b.2 ≤ dtRankOpt a.2) (sortRows l) :=
  List.sorted_insertionSort rowLeP l

lemma sortRows_perm (l : List RowD) : (sortRows l).Perm l :=
  List.perm_insertionSort rowLeP l

lemma mem_sortRows {l : List RowD} {rd : RowD} : rd ∈ sortRows l ↔ rd ∈ l :=
  (sortRows_perm l).mem_iff

lemma length_sortRows (l : List RowD) : (sortRows l).length = l.length :=
  (sortRows_perm l).length_eq

lemma mem_addCol_of_mem {df : List Row} {r : Row} (h : r ∈ df) :
    (r, parse_date r.fecha_vigencia) ∈ addCol df :=
  List.mem_map_of_mem _ h

lemma of_mem_addCol {df : List Row} {rd : RowD} (h : rd ∈ addCol df) :
    rd.1 ∈ df ∧ rd.2 = parse_date rd.1.fecha_vigencia := by
  obtain ⟨r, hr, rfl⟩ := List.mem_map.mp h
  exact ⟨hr, rfl⟩

lemma mem_productGroup {g : List RowD} {pk : Int × String} {rd : RowD} :
    rd ∈ productGroup g pk ↔ rd ∈ g ∧ rd.1.idproducto = pk.1 ∧ rd.1.producto = pk.2 := by
  unfold productGroup
  rw [List.mem_filter]
  simp

/-! ### Counting: a grouped partition preserves total row count -/

lemma sum_ite_key_zero {β : Type _} [BEq β] [LawfulBEq β] :
    ∀ (keys : List β) (x : β), x ∉ keys →
      (keys.map (fun k => if x == k then 1 else 0)).sum = 0 := by
  intro keys
  induction keys with
  | nil => simp
  | cons k0 rest ih =>
    intro x hx
    simp only [List.map_cons, List.sum_cons]
    have h0 : x ≠ k0 := fun he => hx (he ▸ List.mem_cons_self _ _)
    rw [if_neg (by simpa using h0), ih x (fun hm => hx (List.mem_cons_of_mem _ hm))]

lemma sum_ite_key_one {β : Type _} [BEq β] [LawfulBEq β] :
    ∀ (keys : List β) (x : β), keys.Nodup → x ∈ keys →
      (keys.map (fun k => if x == k then 1 else 0)).sum = 1 := by
  intro keys
  induction keys with
  | nil => intro x _ hx; simp at hx
  | cons k0 rest ih =>
    intro x hnd hx
    simp only [List.map_cons, List.sum_cons]
    rcases List.mem_cons.mp hx with rfl | hmem
    · rw [if_pos (by simp), sum_ite_key_zero rest x (List.nodup_cons.mp hnd).1]
    · have h0 : x ≠ k0 := by
        intro he
        exact (List.nodup_cons.mp hnd).1 (he ▸ hmem)
      rw [if_neg (by simpa using h0), ih x (List.nodup_cons.mp hnd).2 hmem]

lemma sum_countP_partition {α β : Type _} [BEq β] [LawfulBEq β] (f : α → β) :
    ∀ (l : List α) (keys : List β), keys.Nodup → (∀ a ∈ l, f a ∈ keys) →
      (keys.map (fun k => l.countP (fun a => f a == k))).sum = l.length := by
  intro l
  induction l with
  | nil => intro keys _ _; simp
  | cons a l ih =>
    intro keys hnd hcov
    have hstep : ∀ k : β, (a :: l).countP (fun x => f x == k)
        = l.countP (fun x => f x == k) + (if f a == k then 1 else 0) := by
      intro k
      rw [List.countP_cons]
    have hmap : (keys.map (fun k => (a :: l).countP (fun x => f x == k)))
        = keys.map (fun k => l.countP (fun x => f x == k) + (if f a == k then 1 else 0)) :=
      List.map_inj_left.mpr (fun k _ => hstep k)
    rw [hmap, List.sum_map_add,
      ih keys hnd (fun x hx => hcov x (List.mem_cons_of_mem _ hx)),
      sum_ite_key_one keys (f a) hnd (hcov a (List.mem_cons_self _ _))]
    simp

lemma partition_perm {α β : Type _} [BEq β] [LawfulBEq β] (f : α → β) :
    ∀ (keys : List β) (l : List α), keys.Nodup → (∀ a ∈ l, f a ∈ keys) →
      ((keys.map (fun k => l.filter (fun a => f a == k))).flatten).Perm l := by
  intro keys
  induction keys with
  | nil =>
    intro l _ hcov
    have hl : l = [] := List.eq_nil_iff_forall_not_mem.mpr (fun a ha => by
      have := hcov a ha
      simp at this)
    simp [hl]
  | cons k0 rest ih =>
    intro l hnd hcov
    simp only [List.map_cons, List.flatten_cons]
    have hswap : ∀ k ∈ rest,
        l.filter (fun a => f a == k)
          = (l.filter (fun a => !(f a == k0))).filter (fun a => f a == k) := by
      intro k hk
      rw [List.filter_filter]
      apply (List.filter_congr ?_).symm
      intro a _
      by_cases hak : (f a == k) = true
      · have hne : f a ≠ k0 := by
          have : f a = k := eq_of_beq hak
          rw [this]
          intro he
          exact (List.nodup_cons.mp hnd).1 (he ▸ hk)
        simp [hak, hne]
      · simp only [Bool.not_eq_true] at hak
        simp [hak]
    have hmapeq : rest.map (fun k => l.filter (fun a => f a == k))
        = rest.map (fun k => (l.filter (fun a => !(f a == k0))).filter (fun a => f a == k)) :=
      List.map_inj_left.mpr hswap
    rw [hmapeq]
    have hcov' : ∀ a ∈ l.filter (fun a => !(f a == k0)), f a ∈ rest := by
      intro a ha
      rw [List.mem_filter] at ha
      have h1 := hcov a ha.1
      rcases List.mem_cons.mp h1 with h | h
      · exfalso
        have := ha.2
        rw [h] at this
        simp at this
      · exact h
    have hperm := ih (l.filter (fun a => !(f a == k0))) (List.nodup_cons.mp hnd).2 hcov'
    exact (List.Perm.append_left _ hperm).trans (List.filter_append_perm _ l)

/-- All price points of the output, station by station, product by product. -/
def allPricePoints (stations : List (Int × Station)) : List PricePoint :=
  (stations.map (fun p => (p.2.products.map (fun q => q.2.prices)).flatten)).flatten

lemma pairBeq (rd : RowD) (pk : Int × String) :
    (rd.1.idproducto == pk.1 && rd.1.producto == pk.2)
      = ((rd.1.idproducto, rd.1.producto) == pk) := by
  cases pk
  rfl

lemma productGroup_eq_filter (g : List RowD) (pk : Int × String) :
    productGroup g pk
      = g.filter (fun rd => (rd.1.idproducto, rd.1.producto) == pk) := by
  unfold productGroup
  exact List.filter_congr (fun rd _ => pairBeq rd pk)

lemma flatten_perm_of_forall {α β : Type _} (keys : List β) (F G : β → List α)
    (h : ∀ k ∈ keys, (F k).Perm (G k)) :
    ((keys.map F).flatten).Perm ((keys.map G).flatten) := by
  induction keys with
  | nil => simp
  | cons k0 rest ih =>
    simp only [List.map_cons, List.flatten_cons]
    exact List.Perm.append (h k0 (List.mem_cons_self _ _))
      (ih (fun k hk => h k (List.mem_cons_of_mem _ hk)))

lemma products_flatten_perm (g : List RowD) :
    (((productPairs g).map (fun pk => (prodOf g pk).prices)).flatten).Perm
      (g.map priceEntry) := by
  have h1 : (productPairs g).map (fun pk => (prodOf g pk).prices)
      = ((productPairs g).map (fun pk => productGroup g pk)).map (List.map priceEntry) := by
    rw [List.map_map]
    rfl
  rw [h1, ← List.map_flatten]
  apply List.Perm.map
  have h2 : (productPairs g).map (fun pk => productGroup g pk)
      = (productPairs g).map
          (fun pk => g.filter (fun rd => (rd.1.idproducto, rd.1.producto) == pk)) :=
    List.map_inj_left.mpr (fun pk _ => productGroup_eq_filter g pk)
  rw [h2]
  exact partition_perm (fun rd : RowD => (rd.1.idproducto, rd.1.producto))
    (productPairs g) g (productPairs_nodup g)
    (fun rd hrd => mem_productPairs.mpr ⟨rd, hrd, rfl⟩)

lemma buildStation_products (dfd : List RowD) (sid : Int)
    (h : stationGroup dfd sid ≠ []) :
    (buildStation dfd sid).products
      = (productPairs (stationGroup dfd sid)).map
          (fun pk => (product_key pk, prodOf (stationGroup dfd sid) pk)) := by
  obtain ⟨first, rest, hfr⟩ := List.exists_cons_of_ne_nil h
  rw [buildStation_eq dfd sid first rest hfr]
  exact processProducts_nil _

lemma station_flatten_perm (dfd : List RowD) (sid : Int)
    (h : stationGroup dfd sid ≠ []) :
    (((buildStation dfd sid).products.map (fun q => q.2.prices)).flatten).Perm
      ((stationGroup dfd sid).map priceEntry) := by
  rw [buildStation_products dfd sid h, List.map_map]
  exact products_flatten_perm (stationGroup dfd sid)

lemma allPricePoints_perm (df : List Row) :
    (allPricePoints (process_stations df)).Perm ((addCol df).map priceEntry) := by
  rw [process_stations_eq df]
  unfold allPricePoints
  rw [List.map_map]
  have h1 : (((stationKeys (sortRows (addCol df))).map
      ((fun p : Int × Station => (p.2.products.map (fun q => q.2.prices)).flatten)
        ∘ (fun sid => (sid, buildStation (sortRows (addCol df)) sid)))).flatten).Perm
      (((stationKeys (sortRows (addCol df))).map
        (fun sid => (stationGroup (sortRows (addCol df)) sid).map priceEntry)).flatten) :=
    flatten_perm_of_forall _ _ _ (fun sid hsid =>
      station_flatten_perm (sortRows (addCol df)) sid
        (stationGroup_ne_nil_of_mem_keys hsid))
  refine h1.trans ?_
  have h3 : (stationKeys (sortRows (addCol df))).map
        (fun sid => (stationGroup (sortRows (addCol df)) sid).map priceEntry)
      = ((stationKeys (sortRows (addCol df))).map
          (fun sid => stationGroup (sortRows (addCol df)) sid)).map
          (List.map priceEntry) := by
    rw [List.map_map]
    rfl
  rw [h3, ← List.map_flatten]
  apply List.Perm.map
  have h2 := partition_perm (fun rd : RowD => rd.1.idempresa)
    (stationKeys (sortRows (addCol df))) (sortRows (addCol df))
    (stationKeys_nodup _)
    (fun rd hrd => mem_stationKeys.mpr ⟨rd, hrd, rfl⟩)
  exact h2.trans (sortRows_perm _)

lemma allPricePoints_length (df : List Row) :
    (allPricePoints (process_stations df)).length = df.length := by
  rw [(allPricePoints_perm df).length_eq, List.length_map]
  unfold addCol
  rw [List.length_map]

/-! ### Lookup characterizations -/

lemma product_key_injective : Function.Injective product_key :=
  fun _ _ h => product_key_inj h

lemma lookup_process_stations_some {df : List Row} {sid : Int} {st : Station}
    (h : (process_stations df).lookup sid = some st) :
    sid ∈ stationKeys (sortRows (addCol df))
      ∧ st = buildStation (sortRows (addCol df)) sid := by
  rw [process_stations_eq df] at h
  obtain ⟨t, ht, hkt, hx⟩ :=
    lookup_keyed_map_some (fun s : Int => s)
      (fun s => buildStation (sortRows (addCol df)) s)
      (stationKeys (sortRows (addCol df))) sid st h
  have hts : t = sid := hkt
  exact ⟨hts ▸ ht, by rw [hx, hts]⟩

lemma lookup_process_stations_self {df : List Row} {sid : Int}
    (h : sid ∈ stationKeys (sortRows (addCol df))) :
    (process_stations df).lookup sid
      = some (buildStation (sortRows (addCol df)) sid) := by
  rw [process_stations_eq df]
  have := lookup_keyed_map_self (fun s : Int => s)
    (fun s => buildStation (sortRows (addCol df)) s)
    (stationKeys (sortRows (addCol df))) sid ?_ h
  · exact this
  · rw [List.map_id']
    exact stationKeys_nodup _

lemma lookup_products_some {dfd : List RowD} {sid : Int}
    (hne : stationGroup dfd sid ≠ []) {key : String} {prod : Product}
    (h : (buildStation dfd sid).products.lookup key = some prod) :
    ∃ pk ∈ productPairs (stationGroup dfd sid),
      product_key pk = key ∧ prod = prodOf (stationGroup dfd sid) pk := by
  rw [buildStation_products dfd sid hne] at h
  exact lookup_keyed_map_some product_key (prodOf (stationGroup dfd sid)) _ key prod h

lemma lookup_products_self {dfd : List RowD} {sid : Int}
    (hne : stationGroup dfd sid ≠ []) {pk : Int × String}
    (hpk : pk ∈ productPairs (stationGroup dfd sid)) :
    (buildStation dfd sid).products.lookup (product_key pk)
      = some (prodOf (stationGroup dfd sid) pk) := by
  rw [buildStation_products dfd sid hne]
  exact lookup_keyed_map_self product_key (prodOf (stationGroup dfd sid)) _ pk
    (List.Nodup.map product_key_injective (productPairs_nodup _)) hpk

/-! ### Claim C1 -/

/-- **C1.** For every input record set, the total number of `PricePoint`s
across all products across all stations of the aggregator's output equals the
number of input records; indeed the multiset of all price points is exactly
the image of the input rows (each row contributing exactly one price point
under exactly one product of exactly one station, since the two-level
grouping partitions the rows). -/
theorem claim_C1_price_count (df : List Row) :
    (allPricePoints (process_stations df)).length = df.length
      ∧ (allPricePoints (process_stations df)).Perm ((addCol df).map priceEntry) :=
  ⟨allPricePoints_length df, allPricePoints_perm df⟩

/-! ### Claim C2 -/

/-- **C2.** For every station and every product of the aggregator's output,
the product's price list is exactly the image of its subgroup's rows in the
globally sorted order, and that subgroup is sorted by non-increasing parsed
effective date with unparseable (null) dates last: no null-dated row ever
precedes a dated one. -/
theorem claim_C2_prices_sorted (df : List Row) (sid : Int) (st : Station)
    (pk : Int × String) (prod : Product)
    (h1 : (process_stations df).lookup sid = some st)
    (h2 : st.products.lookup (product_key pk) = some prod) :
    prod.prices
        = (productGroup (stationGroup (sortRows (addCol df)) sid) pk).map priceEntry
      ∧ List.Pairwise
          (fun a b : RowD =>
            dtRankOpt b.2 ≤ dtRankOpt a.2 ∧ (a.2 = none → b.2 = none))
          (productGroup (stationGroup (sortRows (addCol df)) sid) pk) := by
  obtain ⟨hmem, hst⟩ := lookup_process_stations_some h1
  subst hst
  have hne := stationGroup_ne_nil_of_mem_keys hmem
  obtain ⟨pk', hpk', hkey, hprod⟩ := lookup_products_some hne h2
  have hpk : pk' = pk := product_key_inj hkey
  rw [hpk] at hpk' hprod
  subst hprod
  constructor
  · rfl
  · have hp :=
      List.Pairwise.filter (R := fun a b : RowD => dtRankOpt b.2 ≤ dtRankOpt a.2)
        (fun rd => rd.1.idproducto == pk.1 && rd.1.producto == pk.2)
        (List.Pairwise.filter (fun rd => rd.1.idempresa == sid)
          (sortRows_pairwise (addCol df)))
    refine hp.imp ?_
    intro a b h
    refine ⟨h, fun ha => ?_⟩
    rw [ha] at h
    cases hb : b.2 with
    | none => rfl
    | some d =>
      rw [hb] at h
      simp [dtRankOpt] at h

/-- A sample input row used by the concrete witnesses. -/
def mkSampleRow (sid : Int) (pid : Int) (pname : String) (fecha : String)
    (precio : Option ℚ) (lat lng : Option ℚ) : Row :=
  { idempresa := sid
    empresa := "Estacion " ++ toString sid
    direccion := "Av. Siempreviva 742"
    localidad := "Springfield"
    provincia := "Buenos Aires"
    empresabandera := "Marca"
    idempresabandera := 7
    latitud := lat
    longitud := lng
    idproducto := pid
    producto := pname
    precio := precio
    fecha_vigencia := fecha
    tipohorario := "Diurno"
    idtipohorario := 2 }

/-- Two rows, same station and product, dated 01/06/2023 10:00 and
02/06/2023 09:00. -/
def c2df : List Row :=
  [mkSampleRow 10 5 "Nafta" "01/06/2023 10:00" (some 100) none none,
   mkSampleRow 10 5 "Nafta" "02/06/2023 09:00" (some 110) none none]

def c2st : Station := buildStation (sortRows (addCol c2df)) 10

def c2prod : Product := prodOf (stationGroup (sortRows (addCol c2df)) 10) (5, "Nafta")

/-- Witness for C2: on the two-row scenario the product has exactly two
prices and the `02/06` one comes first. -/
theorem claim_C2_witness :
    (process_stations c2df).lookup 10 = some c2st
      ∧ c2st.products.lookup (product_key (5, "Nafta")) = some c2prod
      ∧ (c2prod.prices
            = (productGroup (stationGroup (sortRows (addCol c2df)) 10) (5, "Nafta")).map
                priceEntry
          ∧ List.Pairwise
              (fun a b : RowD =>
                dtRankOpt b.2 ≤ dtRankOpt a.2 ∧ (a.2 = none → b.2 = none))
              (productGroup (stationGroup (sortRows (addCol c2df)) 10) (5, "Nafta")))
      ∧ c2prod.prices.map (fun p => p.date)
          = [some "2023-06-02T09:00:00Z", some "2023-06-01T10:00:00Z"] := by
  have h1 : (process_stations c2df).lookup 10 = some c2st := by decide
  have h2 : c2st.products.lookup (product_key (5, "Nafta")) = some c2prod := by decide
  exact ⟨h1, h2, claim_C2_prices_sorted c2df 10 c2st (5, "Nafta") c2prod h1 h2, by decide⟩

/-! ### Claim C3 -/

/-- **C3.** Every output station's display fields and coordinate pair come
from the first row of its group in the globally sorted frame: that row is an
input row with the station's id, its parsed-date column is the parse of its
date string, and its parsed date is maximal (most recent, with unparseable
dates ranking lowest) among all input rows of that station id.  The
coordinates are the (optionally parsed) latitude/longitude cells of that
seeding row. -/
theorem claim_C3_station_seeding (df : List Row) (sid : Int) (st : Station)
    (h : (process_stations df).lookup sid = some st) :
    ∃ first rest, stationGroup (sortRows (addCol df)) sid = first :: rest
      ∧ st.stationId = first.1.idempresa
      ∧ st.stationName = first.1.empresa
      ∧ st.address = first.1.direccion
      ∧ st.town = first.1.localidad
      ∧ st.province = first.1.provincia
      ∧ st.flag = first.1.empresabandera
      ∧ st.flagId = first.1.idempresabandera
      ∧ st.coordinates.lat = first.1.latitud
      ∧ st.coordinates.lng = first.1.longitud
      ∧ first.1 ∈ df ∧ first.1.idempresa = sid
      ∧ first.2 = parse_date first.1.fecha_vigencia
      ∧ ∀ r ∈ df, r.idempresa = sid →
          dtRankOpt (parse_date r.fecha_vigencia) ≤ dtRankOpt first.2 := by
  obtain ⟨hmem, hst⟩ := lookup_process_stations_some h
  subst hst
  have hne := stationGroup_ne_nil_of_mem_keys hmem
  obtain ⟨first, rest, hfr⟩ := List.exists_cons_of_ne_nil hne
  have hfg : first ∈ stationGroup (sortRows (addCol df)) sid := by
    rw [hfr]
    exact List.mem_cons_self _ _
  have hfsort := (mem_stationGroup.mp hfg).1
  have hfid := (mem_stationGroup.mp hfg).2
  have hfdf := of_mem_addCol (mem_sortRows.mp hfsort)
  refine ⟨first, rest, hfr, ?_⟩
  rw [buildStation_eq _ _ first rest hfr]
  refine ⟨rfl, rfl, rfl, rfl, rfl, rfl, rfl, rfl, rfl, hfdf.1, hfid, hfdf.2, ?_⟩
  intro r hr hid
  have hrg : (r, parse_date r.fecha_vigencia) ∈ stationGroup (sortRows (addCol df)) sid :=
    mem_stationGroup.mpr ⟨mem_sortRows.mpr (mem_addCol_of_mem hr), hid⟩
  rw [hfr] at hrg
  rcases List.mem_cons.mp hrg with heq | hmemr
  · have h2 : parse_date r.fecha_vigencia = first.2 := congrArg Prod.snd heq
    rw [h2]
  · have hp : List.Pairwise (fun a b : RowD => dtRankOpt b.2 ≤ dtRankOpt a.2)
        (first :: rest) := by
      rw [← hfr]
      exact List.Pairwise.filter _ (sortRows_pairwise (addCol df))
    exact (List.pairwise_cons.mp hp).1 _ hmemr

def c3df : List Row :=
  [mkSampleRow 10 5 "Nafta" "01/06/2023 10:00" (some 100) (some 1) (some 2),
   mkSampleRow 10 5 "Nafta" "02/06/2023 09:00" (some 110) (some 3) (some 4),
   mkSampleRow 10 6 "Gasoil" "bad date" (some 90) (some 5) (some 6)]

def c3st : Station := buildStation (sortRows (addCol c3df)) 10

/-- Witness for C3: the station is seeded from the `02/06` row (most recent;
the unparseable-date row ranks lowest), so its coordinates are `(3, 4)`. -/
theorem claim_C3_witness :
    (process_stations c3df).lookup 10 = some c3st
      ∧ (∃ first rest, stationGroup (sortRows (addCol c3df)) 10 = first :: rest
          ∧ c3st.stationId = first.1.idempresa
          ∧ c3st.stationName = first.1.empresa
          ∧ c3st.address = first.1.direccion
          ∧ c3st.town = first.1.localidad
          ∧ c3st.province = first.1.provincia
          ∧ c3st.flag = first.1.empresabandera
          ∧ c3st.flagId = first.1.idempresabandera
          ∧ c3st.coordinates.lat = first.1.latitud
          ∧ c3st.coordinates.lng = first.1.longitud
          ∧ first.1 ∈ c3df ∧ first.1.idempresa = 10
          ∧ first.2 = parse_date first.1.fecha_vigencia
          ∧ ∀ r ∈ c3df, r.idempresa = 10 →
              dtRankOpt (parse_date r.fecha_vigencia) ≤ dtRankOpt first.2)
      ∧ c3st.coordinates = { lat := some 3, lng := some 4 } := by
  have h : (process_stations c3df).lookup 10 = some c3st := by decide
  exact ⟨h, claim_C3_station_seeding c3df 10 c3st h, by decide⟩

/-! ### Claim C4 -/

/-- **C4.** A row whose price cell is NA (e.g. the CSV text `"N/A"`, which
the reader maps to NaN and `pd.notna` rejects) still contributes a price
point: the output station for its id has a product for its product key whose
price list retains an entry with `price` null and the row's hour-type data. -/
theorem claim_C4_null_price_retained (df : List Row) (r : Row)
    (hr : r ∈ df) (hp : r.precio = none) :
    ∃ st prod p,
      (process_stations df).lookup r.idempresa = some st
        ∧ st.products.lookup (product_key (r.idproducto, r.producto)) = some prod
        ∧ p ∈ prod.prices ∧ p.price = none
        ∧ p.hourType = r.tipohorario ∧ p.hourTypeId = r.idtipohorario
        ∧ p.date = format_date (parse_date r.fecha_vigencia) := by
  have hrd : (r, parse_date r.fecha_vigencia) ∈ sortRows (addCol df) :=
    mem_sortRows.mpr (mem_addCol_of_mem hr)
  have hsid : r.idempresa ∈ stationKeys (sortRows (addCol df)) :=
    mem_stationKeys.mpr ⟨(r, parse_date r.fecha_vigencia), hrd, rfl⟩
  have hne := stationGroup_ne_nil_of_mem_keys hsid
  have hg : (r, parse_date r.fecha_vigencia) ∈ stationGroup (sortRows (addCol df)) r.idempresa :=
    mem_stationGroup.mpr ⟨hrd, rfl⟩
  have hpk : (r.idproducto, r.producto)
      ∈ productPairs (stationGroup (sortRows (addCol df)) r.idempresa) :=
    mem_productPairs.mpr ⟨(r, parse_date r.fecha_vigencia), hg, rfl⟩
  refine ⟨buildStation (sortRows (addCol df)) r.idempresa,
    prodOf (stationGroup (sortRows (addCol df)) r.idempresa) (r.idproducto, r.producto),
    priceEntry (r, parse_date r.fecha_vigencia),
    lookup_process_stations_self hsid, lookup_products_self hne hpk, ?_, hp, rfl, rfl, rfl⟩
  show priceEntry _
    ∈ (productGroup (stationGroup (sortRows (addCol df)) r.idempresa)
        (r.idproducto, r.producto)).map priceEntry
  exact List.mem_map_of_mem _ (mem_productGroup.mpr ⟨hg, rfl, rfl⟩)

def c4df : List Row :=
  [mkSampleRow 10 5 "Nafta" "01/06/2023 10:00" none none none]

/-- Witness for C4: the single row has an NA price and its price point is
retained with `price` null. -/
theorem claim_C4_witness :
    (mkSampleRow 10 5 "Nafta" "01/06/2023 10:00" none none none) ∈ c4df
      ∧ (mkSampleRow 10 5 "Nafta" "01/06/2023 10:00" none none none).precio = none
      ∧ (∃ st prod p,
          (process_stations c4df).lookup 10 = some st
            ∧ st.products.lookup (product_key (5, "Nafta")) = some prod
            ∧ p ∈ prod.prices ∧ p.price = none
            ∧ p.hourType = "Diurno" ∧ p.hourTypeId = 2
            ∧ p.date = format_date (parse_date "01/06/2023 10:00")) := by
  refine ⟨by decide, by decide, ?_⟩
  exact claim_C4_null_price_retained c4df
    (mkSampleRow 10 5 "Nafta" "01/06/2023 10:00" none none none)
    (by decide) (by decide)

/-! ### Claim C5 -/

lemma buildStation_stationId (dfd : List RowD) (sid : Int)
    (h : stationGroup dfd sid ≠ []) :
    (buildStation dfd sid).stationId = sid := by
  obtain ⟨first, rest, hfr⟩ := List.exists_cons_of_ne_nil h
  rw [buildStation_eq dfd sid first rest hfr]
  show first.1.idempresa = sid
  have : first ∈ stationGroup dfd sid := by
    rw [hfr]
    exact List.mem_cons_self _ _
  exact (mem_stationGroup.mp this).2

lemma stationKeys_sorted (dfd : List RowD) :
    List.Pairwise (fun a b : Int => a ≤ b) (stationKeys dfd) :=
  List.sorted_insertionSort _ _

/-- Two stations, id 5 carrying the more recent date: in the sorted frame
station 5 is encountered first, yet the output lists station 3 first. -/
def c5df : List Row :=
  [mkSampleRow 5 1 "Nafta" "02/06/2023 09:00" none none none,
   mkSampleRow 3 1 "Nafta" "01/06/2023 10:00" none none none]

/-- Counterexample to C5 as stated: the formatter does not emit stations in
the order their ids are first encountered in the (sorted) frame during
grouping — that order here is `[5, 3]` — but in ascending id order `[3, 5]`,
because the pandas `groupby` iterates its keys sorted. -/
theorem claim_C5_counterexample :
    (format_output (process_stations c5df)).map (fun e => e.stationId) = [3, 5]
      ∧ ((sortRows (addCol c5df)).map (fun rd => rd.1.idempresa)).dedup = [5, 3]
      ∧ ([3, 5] : List Int) ≠ ([5, 3] : List Int) :=
  ⟨by decide, by decide, by decide⟩

/-- **C5 (amended).** The formatter emits stations in the natural iteration
order of the mapping, but that insertion order is the sorted `groupby` key
order: station ids appear in ascending order, and each station's products
appear (both in the station's dict and in the emitted list) in ascending
`(productId, productName)` order, the sorted key order of the inner
`groupby`. -/
theorem claim_C5_emission_order (df : List Row) (sid : Int) (st : Station)
    (h : (process_stations df).lookup sid = some st) :
    ((format_output (process_stations df)).map (fun e => e.stationId)
        = stationKeys (sortRows (addCol df))
      ∧ List.Pairwise (fun a b : Int => a ≤ b)
          ((format_output (process_stations df)).map (fun e => e.stationId)))
      ∧ List.Pairwise
          (fun p q : String × Product =>
            p.2.productId < q.2.productId
              ∨ (p.2.productId = q.2.productId ∧ p.2.productName ≤ q.2.productName))
          st.products
      ∧ (mkStationEntry st).products = st.products.map Prod.snd := by
  have hmain : (format_output (process_stations df)).map (fun e => e.stationId)
      = stationKeys (sortRows (addCol df)) := by
    rw [process_stations_eq df]
    unfold format_output
    rw [List.map_map, List.map_map]
    have hpt : ∀ sid' ∈ stationKeys (sortRows (addCol df)),
        (((fun e : StationEntry => e.stationId) ∘ (fun p : Int × Station => mkStationEntry p.2))
          ∘ (fun s => (s, buildStation (sortRows (addCol df)) s))) sid'
          = id sid' := by
      intro sid' hs
      show (buildStation (sortRows (addCol df)) sid').stationId = sid'
      exact buildStation_stationId _ _ (stationGroup_ne_nil_of_mem_keys hs)
    rw [List.map_inj_left.mpr hpt, List.map_id]
  obtain ⟨hmem, hst⟩ := lookup_process_stations_some h
  subst hst
  have hne := stationGroup_ne_nil_of_mem_keys hmem
  refine ⟨⟨hmain, hmain ▸ stationKeys_sorted _⟩, ?_, rfl⟩
  rw [buildStation_products _ _ hne]
  have hpair : List.Pairwise pairLeP
      (productPairs (stationGroup (sortRows (addCol df)) sid)) :=
    List.sorted_insertionSort _ _
  refine List.pairwise_map.mpr (hpair.imp ?_)
  intro a b hab
  exact hab

/-! ### Claim C6 -/

lemma needsGeoB_iff (st : Station) :
    needsGeoB st = true
      ↔ (st.coordinates.lat = none ∨ st.coordinates.lng = none
          ∨ st.coordinates.lat = some 0 ∨ st.coordinates.lng = some 0) := by
  unfold needsGeoB
  simp [beq_iff_eq, or_assoc]

/-- Unfolding of the enabled resolver: a no-op when no station is selected,
otherwise a pointwise update of the selected stations. -/
lemma validate_true_eq (service : String → Option GeoResponse)
    (stations : List (Int × Station)) :
    validate_and_geocode_stations true service stations
      = if (stations.filter (fun p => needsGeoB p.2)).isEmpty = true then stations
        else stations.map (fun p =>
          if needsGeoB p.2 then (p.1, geocode_and_update true service p.2) else p) :=
  rfl

/-- **C6.** The resolver selects a station iff `lat` is null, `lng` is null,
`lat = 0` or `lng = 0`; it returns the input mapping unchanged when geocoding
is disabled (whatever the external service would answer) or when no station
is selected, and in general it maps each selected station through its lookup
update while leaving every unselected station untouched. -/
theorem claim_C6_resolver_selection (service : String → Option GeoResponse)
    (stations : List (Int × Station)) :
    validate_and_geocode_stations false service stations = stations
      ∧ ((∀ p ∈ stations,
            ¬(p.2.coordinates.lat = none ∨ p.2.coordinates.lng = none
              ∨ p.2.coordinates.lat = some 0 ∨ p.2.coordinates.lng = some 0)) →
          validate_and_geocode_stations true service stations = stations)
      ∧ validate_and_geocode_stations true service stations
          = stations.map (fun p =>
              if p.2.coordinates.lat = none ∨ p.2.coordinates.lng = none
                  ∨ p.2.coordinates.lat = some 0 ∨ p.2.coordinates.lng = some 0
                then (p.1, geocode_and_update true service p.2)
                else p) := by
  refine ⟨rfl, ?_, ?_⟩
  · intro hall
    rw [validate_true_eq]
    have hfil : stations.filter (fun p => needsGeoB p.2) = [] := by
      rw [List.filter_eq_nil_iff]
      intro p hp
      have hf : needsGeoB p.2 = false := by
        rw [← Bool.not_eq_true]
        intro hb
        exact hall p hp ((needsGeoB_iff p.2).mp hb)
      simp [hf]
    rw [if_pos (by rw [hfil]; rfl)]
  · rw [validate_true_eq]
    by_cases hemp : (stations.filter (fun p => needsGeoB p.2)).isEmpty = true
    · rw [if_pos hemp]
      have hfil : stations.filter (fun p => needsGeoB p.2) = [] :=
        List.isEmpty_iff.mp hemp
      have hnone : ∀ p ∈ stations, needsGeoB p.2 = false := by
        intro p hp
        rw [← Bool.not_eq_true]
        intro hb
        have hmem : p ∈ stations.filter (fun p => needsGeoB p.2) :=
          List.mem_filter.mpr ⟨hp, hb⟩
        rw [hfil] at hmem
        exact absurd hmem (List.not_mem_nil p)
      have hmap : stations.map (fun p =>
          if p.2.coordinates.lat = none ∨ p.2.coordinates.lng = none
              ∨ p.2.coordinates.lat = some 0 ∨ p.2.coordinates.lng = some 0
            then (p.1, geocode_and_update true service p.2)
            else p) = stations.map id := by
        apply List.map_inj_left.mpr
        intro p hp
        rw [if_neg]
        · rfl
        · intro hcond
          have hb := (needsGeoB_iff p.2).mpr hcond
          rw [hnone p hp] at hb
          exact Bool.false_ne_true hb
      rw [hmap, List.map_id]
    · rw [if_neg hemp]
      apply List.map_inj_left.mpr
      intro p hp
      by_cases hb : needsGeoB p.2 = true
      · rw [if_pos hb, if_pos ((needsGeoB_iff p.2).mp hb)]
      · rw [Bool.not_eq_true] at hb
        rw [if_neg, if_neg]
        · intro hcond
          have hb2 := (needsGeoB_iff p.2).mpr hcond
          rw [hb] at hb2
          exact Bool.false_ne_true hb2
        · rw [hb]
          exact Bool.false_ne_true

/-! ### Claim C7 -/

lemma mkAddress_ne_empty (st : Station) : (mkAddress st == "") = false := by
  rw [beq_eq_false_iff_ne]
  intro h
  have hd : (mkAddress st).data = [] := by rw [h]
  unfold mkAddress at hd
  rw [String.data_append] at hd
  have h2 := (List.append_eq_nil.mp hd).2
  exact absurd h2 (by decide)

lemma geocode_async_eval (service : String → Option GeoResponse) (s : String)
    (hs : (s == "") = false) :
    geocode_address_async true service (AddrVal.str s)
      = (match service s with
         | none => (((none : Option ℚ), (none : Option ℚ)), true)
         | some data =>
           if data.status == "OK" then
             match data.results with
             | [] => ((none, none), true)
             | r :: _ => ((some r.lat, some r.lng), true)
           else ((none, none), true)) := by
  have hcond : addrSkipped true (AddrVal.str s) = false := by
    unfold addrSkipped
    simp [hs]
  unfold geocode_address_async
  rw [hcond]
  rfl

/-- The two-sided `geocode_and_update` without its `let` bindings. -/
lemma geocode_and_update_eq (enabled : Bool)
    (service : String → Option GeoResponse) (st : Station) :
    geocode_and_update enabled service st
      = if pyTruthy (geocode_address_async enabled service
              (AddrVal.str (mkAddress st))).1.1
          && pyTruthy (geocode_address_async enabled service
              (AddrVal.str (mkAddress st))).1.2 then
          { st with coordinates :=
            { lat := (geocode_address_async enabled service
                (AddrVal.str (mkAddress st))).1.1
              lng := (geocode_address_async enabled service
                (AddrVal.str (mkAddress st))).1.2 } }
        else st :=
  rfl

/-- The returned pair of a successful lookup: status `"OK"` with a non-empty
result list yields the first result's coordinate pair. -/
lemma geocode_async_ok (service : String → Option GeoResponse) (st : Station)
    (resp : GeoResponse) (r : GeoResult) (rs : List GeoResult)
    (hresp : service (mkAddress st) = some resp) (hstat : resp.status = "OK")
    (hres : resp.results = r :: rs) :
    (geocode_address_async true service (AddrVal.str (mkAddress st))).1
      = (some r.lat, some r.lng) := by
  rw [geocode_async_eval service _ (mkAddress_ne_empty st), hresp]
  show ((if (resp.status == "OK") = true then
          match resp.results with
          | [] => (((none : Option ℚ), (none : Option ℚ)), true)
          | r :: _ => ((some r.lat, some r.lng), true)
        else ((none, none), true)) : (Option ℚ × Option ℚ) × Bool).1
      = (some r.lat, some r.lng)
  rw [if_pos (by rw [hstat]; rfl), hres]

/-- **C7 (amended).** When the lookup for a selected station succeeds *and
both returned coordinates are non-zero*, both coordinate fields are
overwritten with the returned pair; when the lookup succeeds but returns a
zero coordinate on either axis, the station is left untouched (Python's
truthiness test `if lat and lng` treats the returned `0.0` as falsy, see the
counterexample); when the lookup fails (a null component is returned) the
station is likewise left untouched; and the resolver never touches a station
whose coordinate pair is already present and non-zero, so it never regresses
a valid pair (each selected station's lookup is attempted exactly once — the
update is a single application of `geocode_and_update`). -/
theorem claim_C7_update_rules (service : String → Option GeoResponse) (st : Station) :
    (∀ resp r rs, service (mkAddress st) = some resp → resp.status = "OK" →
        resp.results = r :: rs → r.lat ≠ 0 → r.lng ≠ 0 →
        geocode_and_update true service st
          = { st with coordinates := { lat := some r.lat, lng := some r.lng } })
      ∧ (∀ resp r rs, service (mkAddress st) = some resp → resp.status = "OK" →
          resp.results = r :: rs → (r.lat = 0 ∨ r.lng = 0) →
          geocode_and_update true service st = st)
      ∧ ((geocode_address_async true service (AddrVal.str (mkAddress st))).1.1 = none
            ∨ (geocode_address_async true service (AddrVal.str (mkAddress st))).1.2 = none →
          geocode_and_update true service st = st)
      ∧ (∀ (enabled : Bool) (stations : List (Int × Station)) (i : Nat)
            (p : Int × Station) (a b : ℚ),
          stations[i]? = some p →
          p.2.coordinates.lat = some a → a ≠ 0 →
          p.2.coordinates.lng = some b → b ≠ 0 →
          (validate_and_geocode_stations enabled service stations)[i]? = some p) := by
  refine ⟨?_, ?_, ?_, ?_⟩
  · intro resp r rs hresp hstat hres hlat hlng
    have hasync := geocode_async_ok service st resp r rs hresp hstat hres
    have h1 : (geocode_address_async true service (AddrVal.str (mkAddress st))).1.1
        = some r.lat := by rw [hasync]
    have h2 : (geocode_address_async true service (AddrVal.str (mkAddress st))).1.2
        = some r.lng := by rw [hasync]
    rw [geocode_and_update_eq, h1, h2]
    have ht1 : pyTruthy (some r.lat) = true := by simp [pyTruthy, hlat]
    have ht2 : pyTruthy (some r.lng) = true := by simp [pyTruthy, hlng]
    rw [if_pos (by rw [ht1, ht2]; rfl)]
  · intro resp r rs hresp hstat hres hzero
    have hasync := geocode_async_ok service st resp r rs hresp hstat hres
    have h1 : (geocode_address_async true service (AddrVal.str (mkAddress st))).1.1
        = some r.lat := by rw [hasync]
    have h2 : (geocode_address_async true service (AddrVal.str (mkAddress st))).1.2
        = some r.lng := by rw [hasync]
    rw [geocode_and_update_eq, h1, h2]
    rcases hzero with hz | hz
    · rw [if_neg]
      intro hc
      rw [show pyTruthy (some r.lat) = false from by simp [pyTruthy, hz]] at hc
      exact Bool.false_ne_true (by simpa using hc)
    · rw [if_neg]
      intro hc
      rw [show pyTruthy (some r.lng) = false from by simp [pyTruthy, hz]] at hc
      exact Bool.false_ne_true (by simpa using hc)
  · intro hnone
    rw [geocode_and_update_eq]
    rcases hnone with h | h
    · rw [if_neg]
      rw [h]
      simp [pyTruthy]
    · rw [if_neg]
      rw [h]
      simp [pyTruthy]
  · intro enabled stations i p a b hip hla hane hlb hbne
    have hnb : needsGeoB p.2 = false := by
      unfold needsGeoB
      rw [hla, hlb]
      simp [hane, hbne]
    cases enabled with
    | false =>
      have hid : validate_and_geocode_stations false service stations = stations := rfl
      rw [hid]
      exact hip
    | true =>
      rw [validate_true_eq]
      by_cases hemp : (stations.filter (fun q => needsGeoB q.2)).isEmpty = true
      · rw [if_pos hemp]
        exact hip
      · rw [if_neg hemp, List.getElem?_map, hip]
        simp [hnb]

/-- A station with no coordinates whose geocoding response is a *successful*
lookup returning latitude `0`. -/
def c7st : Station :=
  { stationId := 1
    stationName := "S"
    address := "A"
    town := "T"
    province := "P"
    flag := "F"
    flagId := 1
    coordinates := { lat := none, lng := none }
    products := [] }

def c7service : String → Option GeoResponse :=
  fun _ => some { status := "OK", results := [{ lat := 0, lng := -5 }] }

/-- Counterexample to C7 as stated: the lookup *succeeds* (status OK, a
result pair `(0, -5)` is returned), yet the station's coordinate fields are
not overwritten — Python's `if lat and lng:` treats the returned `0.0` as
falsy, so the claim "when its lookup succeeds both coordinate fields are
overwritten with the returned pair" fails here. -/
theorem claim_C7_counterexample :
    (geocode_address_async true c7service (AddrVal.str (mkAddress c7st))).1
        = (some 0, some (-5))
      ∧ geocode_and_update true c7service c7st = c7st
      ∧ c7st.coordinates ≠ { lat := some 0, lng := some (-5) } :=
  ⟨by decide, by decide, by decide⟩

def c7okService : String → Option GeoResponse :=
  fun _ => some { status := "OK", results := [{ lat := 2, lng := -5 }] }

/-- Witness for the amended C7: a service returning the non-zero pair
`(2, -5)` has the coordinates overwritten; a service successfully returning
the zero-latitude pair `(0, -5)` leaves the station untouched; and a station
with valid coordinates passes through the resolver untouched. -/
theorem claim_C7_witness :
    (geocode_and_update true c7okService c7st
        = { c7st with coordinates := { lat := some 2, lng := some (-5) } })
      ∧ geocode_and_update true c7service c7st = c7st
      ∧ ([((1 : Int),
            { c7st with coordinates := { lat := some 2, lng := some (-5) } })][0]?
          = some (1, { c7st with coordinates := { lat := some 2, lng := some (-5) } }))
      ∧ (validate_and_geocode_stations true c7okService
          [(1, { c7st with coordinates := { lat := some 2, lng := some (-5) } })])[0]?
          = some (1, { c7st with coordinates := { lat := some 2, lng := some (-5) } }) := by
  have h := claim_C7_update_rules c7okService c7st
  have hz := claim_C7_update_rules c7service c7st
  refine ⟨h.1 { status := "OK", results := [{ lat := 2, lng := -5 }] }
      { lat := 2, lng := -5 } [] rfl rfl rfl (by decide) (by decide),
    hz.2.1 { status := "OK", results := [{ lat := 0, lng := -5 }] }
      { lat := 0, lng := -5 } [] rfl rfl rfl (Or.inl rfl), by decide, ?_⟩
  exact h.2.2.2 true
    [(1, { c7st with coordinates := { lat := some 2, lng := some (-5) } })] 0
    (1, { c7st with coordinates := { lat := some 2, lng := some (-5) } }) 2 (-5)
    (by decide) rfl (by decide) rfl (by decide)

/-! ### Claim C8 -/

lemma orZero_eq_getD (o : Option ℚ) : orZero o = o.getD 0 := by
  cases o with
  | none => rfl
  | some v =>
    by_cases h : v = 0
    · simp [orZero, h]
    · simp [orZero, h]

/-- **C8.** The formatter maps each station, in order, to an entry whose
`geometry` is a `"Point"` with coordinate pair `[lng, lat]` (longitude
first), substituting `0.0` for an axis that is still null, while emitting
every other station field and the product list (hence every price list)
unchanged; a station whose coordinates are both null yields `[0.0, 0.0]`. -/
theorem claim_C8_formatter (stations : List (Int × Station)) (st : Station) :
    format_output stations = stations.map (fun p => mkStationEntry p.2)
      ∧ (mkStationEntry st).stationId = st.stationId
      ∧ (mkStationEntry st).stationName = st.stationName
      ∧ (mkStationEntry st).address = st.address
      ∧ (mkStationEntry st).town = st.town
      ∧ (mkStationEntry st).province = st.province
      ∧ (mkStationEntry st).flag = st.flag
      ∧ (mkStationEntry st).flagId = st.flagId
      ∧ (mkStationEntry st).geometry
          = { type := "Point"
              coordinates := [st.coordinates.lng.getD 0, st.coordinates.lat.getD 0] }
      ∧ (mkStationEntry st).products = st.products.map Prod.snd
      ∧ (st.coordinates.lat = none → st.coordinates.lng = none →
          (mkStationEntry st).geometry.coordinates = [0, 0]) := by
  refine ⟨rfl, rfl, rfl, rfl, rfl, rfl, rfl, rfl, ?_, rfl, ?_⟩
  · simp [mkStationEntry, orZero_eq_getD]
  · intro hla hlo
    simp [mkStationEntry, hla, hlo, orZero]

def c8st : Station :=
  { stationId := 9
    stationName := "S"
    address := "A"
    town := "T"
    province := "P"
    flag := "F"
    flagId := 3
    coordinates := { lat := none, lng := none }
    products := [("1_Nafta",
      { productId := 1
        productName := "Nafta"
        prices := [{ price := none, date := none, hourType := "D", hourTypeId := 1 }] })] }

/-- Witness for C8 at a station whose lookup failed and whose coordinates
are still null: the geometry falls back to `[0.0, 0.0]` and everything else
is emitted unchanged. -/
theorem claim_C8_witness :
    format_output [(9, c8st)] = [mkStationEntry c8st]
      ∧ (mkStationEntry c8st).geometry
          = { type := "Point"
              coordinates := [c8st.coordinates.lng.getD 0, c8st.coordinates.lat.getD 0] }
      ∧ (mkStationEntry c8st).products = c8st.products.map Prod.snd
      ∧ c8st.coordinates.lat = none
      ∧ c8st.coordinates.lng = none
      ∧ (mkStationEntry c8st).geometry.coordinates = [0, 0] := by
  have h := claim_C8_formatter [(9, c8st)] c8st
  exact ⟨h.1, h.2.2.2.2.2.2.2.2.1, h.2.2.2.2.2.2.2.2.2.1, rfl, rfl,
    h.2.2.2.2.2.2.2.2.2.2 rfl rfl⟩

/-! ### Claim C10 -/

/-- **C10.** A geocoding call whose address is `None`, NaN or the empty
string returns the failure pair `(None, None)` without contacting the
external service at all (the contacted flag is `false` and the result does
not depend on the service), even when geocoding is enabled. -/
theorem claim_C10_empty_address (enabled : Bool)
    (service : String → Option GeoResponse) (addr : AddrVal)
    (h : addr = AddrVal.null ∨ addr = AddrVal.nan ∨ addr = AddrVal.str "") :
    geocode_address_async enabled service addr = ((none, none), false)
      ∧ ∀ service' : String → Option GeoResponse,
          geocode_address_async enabled service addr
            = geocode_address_async enabled service' addr := by
  have hskip : addrSkipped enabled addr = true := by
    rcases h with rfl | rfl | rfl <;> cases enabled <;> rfl
  constructor
  · unfold geocode_address_async
    rw [hskip]
    rfl
  · intro service'
    unfold geocode_address_async
    rw [hskip]
    rfl

/-- Witness for C10: the null address with geocoding enabled. -/
theorem claim_C10_witness :
    (AddrVal.null = AddrVal.null ∨ AddrVal.null = AddrVal.nan
        ∨ AddrVal.null = AddrVal.str "")
      ∧ geocode_address_async true c7okService AddrVal.null = ((none, none), false)
      ∧ ∀ service' : String → Option GeoResponse,
          geocode_address_async true c7okService AddrVal.null
            = geocode_address_async true service' AddrVal.null := by
  have h := claim_C10_empty_address true c7okService AddrVal.null (Or.inl rfl)
  exact ⟨Or.inl rfl, h.1, h.2⟩

/-! ### Claim C6 witness -/

def c6stations : List (Int × Station) :=
  [(1, { c7st with coordinates := { lat := some 2, lng := some (-5) } })]

/-- Witness for C6: with geocoding disabled the mapping is returned
unchanged, with geocoding enabled but no station selected (all coordinates
present and non-zero) it is returned unchanged, and the pointwise
characterization holds. -/
theorem claim_C6_witness :
    validate_and_geocode_stations false c7okService c6stations = c6stations
      ∧ validate_and_geocode_stations true c7okService c6stations = c6stations
      ∧ validate_and_geocode_stations true c7okService c6stations
          = c6stations.map (fun p =>
              if p.2.coordinates.lat = none ∨ p.2.coordinates.lng = none
                  ∨ p.2.coordinates.lat = some 0 ∨ p.2.coordinates.lng = some 0
                then (p.1, geocode_and_update true c7okService p.2)
                else p) := by
  have h := claim_C6_resolver_selection c7okService c6stations
  refine ⟨h.1, h.2.1 ?_, h.2.2⟩
  intro p hp
  rcases List.mem_cons.mp hp with rfl | hmem
  · intro hc
    rcases hc with hc | hc | hc | hc <;> revert hc <;> decide
  · exact absurd hmem (List.not_mem_nil p)

def c5st : Station := buildStation (sortRows (addCol c5df)) 3

/-- Witness for the amended C5: on the two-station example the output order
is the ascending key order `[3, 5]` and the looked-up station's products are
in ascending composite-key order. -/
theorem claim_C5_witness :
    (process_stations c5df).lookup 3 = some c5st
      ∧ (((format_output (process_stations c5df)).map (fun e => e.stationId)
            = stationKeys (sortRows (addCol c5df))
          ∧ List.Pairwise (fun a b : Int => a ≤ b)
              ((format_output (process_stations c5df)).map (fun e => e.stationId)))
        ∧ List.Pairwise
            (fun p q : String × Product =>
              p.2.productId < q.2.productId
                ∨ (p.2.productId = q.2.productId ∧ p.2.productName ≤ q.2.productName))
            c5st.products
        ∧ (mkStationEntry c5st).products = c5st.products.map Prod.snd) := by
  have h : (process_stations c5df).lookup 3 = some c5st := by decide
  exact ⟨h, claim_C5_emission_order c5df 3 c5st h⟩
